import Mathlib

/-!
Shallow embedding of the financial-chat application routes
(src/app/api/chat/route.js and src/app/api/feedback/route.js):
symbol normalization, the market-data batch functions, the
function-dispatch POST endpoint, and the feedback PUT endpoint.
External services (market-data provider, NSE feed, coin list,
LLM, key-value store) are modelled as explicit oracles passed in.
-/

/-- A thrown JavaScript exception, propagating to the nearest catch. -/
inductive JsErr where
  | typeError
  | jsonError
  | errorMsg (m : String)
  deriving DecidableEq, Repr

/-- The fields of a provider quote object that the code reads. -/
structure Quote where
  longName : Option String
  shortName : Option String
  regularMarketChange : ℚ
  regularMarketChangePercent : ℚ
  marketCap : ℚ
  deriving DecidableEq, Repr

/-- Outcome of the per-symbol upstream calls for one canonical symbol:
the quote call may throw; the realtime fetch may yield null; or both
succeed, in which case the oracle also fixes the realtime price, the
historical series, the optional detailed info and the news list produced
by the helper fetchers (which catch internally and never throw). -/
inductive SymOutcome where
  | quoteThrows
  | rtNull (q : Quote)
  | ok (q : Quote) (price : ℚ) (history : List (String × ℚ))
      (detailedInfo : Option String) (news : List String)
  deriving DecidableEq, Repr

/-- One element of a batch result array: an error-tagged record (which
has no prices field), a full quote record, or the explanatory
placeholder record carrying the underPrice bound it mentions. -/
inductive QuoteEntry where
  | err (symbol : String) (error : String)
  | ok (symbol : String) (name : String) (dates : List String)
      (prices : List ℚ) (history : List (String × ℚ))
      (change : ℚ) (changePercentage : ℚ) (marketCap : ℚ)
      (detailedInfo : Option String) (news : List String)
  | message (underPrice : ℚ)
  deriving DecidableEq, Repr

def isErrEntry : QuoteEntry → Bool
  | .err _ _ => true
  | _ => false

def isOkEntry : QuoteEntry → Bool
  | .ok _ _ _ _ _ _ _ _ _ _ => true
  | _ => false

def entrySymbol : QuoteEntry → String
  | .err s _ => s
  | .ok s _ _ _ _ _ _ _ _ _ => s
  | .message _ => ""

/-- Uppercase Latin letter, as matched by the character class A-Z. -/
def isUpperAlpha (c : Char) : Bool := decide ('A' ≤ c) && decide (c ≤ 'Z')

/-- Equity symbol normalization from getStockPrice: append .NS when the
symbol has no dot and matches the anchored regex of one or more
uppercase letters; otherwise pass through unchanged. -/
def normalizeEquity (s : String) : String :=
  if !(s.toList.contains '.') && (!s.toList.isEmpty && s.toList.all isUpperAlpha)
  then s ++ ".NS" else s

/-- Crypto symbol normalization from getCryptoPrice: append -USD when
the symbol contains no dash; otherwise pass through unchanged. -/
def normalizeCrypto (s : String) : String :=
  if !(s.toList.contains '-') then s ++ "-USD" else s

/-- True when the upstream calls for this symbol fail (quote throws or
the realtime fetch yields null). -/
def outcomeFails : SymOutcome → Bool
  | .quoteThrows => true
  | .rtNull _ => true
  | .ok _ _ _ _ _ => false

def symFails (env : String → SymOutcome) (s : String) : Bool :=
  outcomeFails (env (normalizeEquity s))

def cryptoFails (env : String → SymOutcome) (s : String) : Bool :=
  outcomeFails (env (normalizeCrypto s))

/-- The body of the loop of getStockPrice for one raw symbol: normalize,
fetch, and push either an error-tagged record (carrying the raw symbol)
or a full quote record (carrying the canonical symbol). -/
def fetchStockEntry (env : String → SymOutcome) (now : String)
    (symbol : String) : QuoteEntry :=
  let querySymbol := normalizeEquity symbol
  match env querySymbol with
  | .quoteThrows => .err symbol "Unable to fetch data"
  | .rtNull _ => .err symbol "No real-time data available"
  | .ok q p hist det news =>
      .ok querySymbol (q.longName.getD symbol) [now] [p] hist
        q.regularMarketChange q.regularMarketChangePercent q.marketCap det news

/-- Evaluation of the filter predicate r.prices[0] < underPrice on one
entry: on a record with no prices field (error or placeholder records)
reading index 0 of undefined throws a TypeError; on a quote record an
out-of-range read yields undefined and the comparison is false. -/
def entryUnder (u : ℚ) : QuoteEntry → Except JsErr Bool
  | .err _ _ => .error .typeError
  | .message _ => .error .typeError
  | .ok _ _ _ prices _ _ _ _ _ _ =>
      .ok (match prices.head? with
           | some p => decide (p < u)
           | none => false)

/-- Array.filter with the prices[0] comparison: evaluates the predicate
left to right and propagates the first thrown TypeError. -/
def jsFilterUnder (u : ℚ) : List QuoteEntry → Except JsErr (List QuoteEntry)
  | [] => .ok []
  | e :: es => do
      let b ← entryUnder u e
      let rest ← jsFilterUnder u es
      return if b then e :: rest else rest

/-- Boolean form of the filter predicate on records that do carry
prices; false on error and placeholder records. -/
def entryPriceUnderB (u : ℚ) : QuoteEntry → Bool
  | .ok _ _ _ prices _ _ _ _ _ _ =>
      (match prices.head? with
       | some p => decide (p < u)
       | none => false)
  | _ => false

/-- getStockPrice from the chat route: sequential per-symbol loop with
per-item error capture, then the optional underPrice filter applied to
the accumulated results. There is no placeholder for an empty filter
result here. -/
def getStockPrice (env : String → SymOutcome) (now : String)
    (symbols : List String) (underPrice : Option ℚ) :
    Except JsErr (List QuoteEntry) :=
  let results := symbols.map (fetchStockEntry env now)
  match underPrice with
  | none => .ok results
  | some u => jsFilterUnder u results

/-- A batch call that can come back as a bare error object instead of
an array (the trending fetchers). -/
inductive BatchResult where
  | errObj (error : String)
  | list (entries : List QuoteEntry)
  deriving DecidableEq, Repr

/-- Outcome of the two-step NSE trending-equities handshake: failure of
either step, or the list of raw trending symbols. -/
inductive NseOutcome where
  | fail
  | ok (symbols : List String)
  deriving DecidableEq, Repr

/-- Outcome of the coin-list fetch, per requested page size: failure, or
the list of coins as pairs of lowercase ticker and display name. -/
inductive GeckoOutcome where
  | fail
  | ok (coins : List (String × String))
  deriving DecidableEq, Repr

/-- Outcome of the synthetic USDINR=X rate quote: the call may throw, or
return a quote whose regularMarketPrice may be absent. -/
inductive RateOutcome where
  | throws
  | ok (regularMarketPrice : Option ℚ)
  deriving DecidableEq, Repr

/-- The conversion-rate computation of the crypto functions: on a throw
the rate keeps its initial value 1; a missing or zero price is falsy and
the or-else picks 1; otherwise the fetched price is the rate. -/
def rateOf : RateOutcome → ℚ
  | .throws => 1
  | .ok none => 1
  | .ok (some p) => if p = 0 then 1 else p

/-- The loop body of getTopStocks: failures are skipped entirely (no
error-tagged record is pushed), successes push a full quote record. -/
def buildTopEntries (env : String → SymOutcome) (now : String)
    (syms : List String) : List QuoteEntry :=
  syms.filterMap (fun s =>
    match env s with
    | .quoteThrows => none
    | .rtNull _ => none
    | .ok q p hist det news =>
        some (.ok s (q.longName.getD s) [now] [p] hist
          q.regularMarketChange q.regularMarketChangePercent q.marketCap det news))

/-- getTopStocks from the chat route: the NSE handshake either fails as
a whole (returning a bare error object) or yields trending symbols; the
first limit symbols get a .NS suffix when they have no dot; per-symbol
failures are skipped; the optional underPrice filter runs outside the
try block, so a thrown TypeError there would escape (it cannot, as all
entries here carry prices). No placeholder on an empty filter result. -/
def getTopStocks (nse : NseOutcome) (env : String → SymOutcome) (now : String)
    (limit : Nat) (underPrice : Option ℚ) : Except JsErr BatchResult :=
  match nse with
  | .fail => .ok (.errObj "Unable to fetch trending Indian stocks from NSE.")
  | .ok trending =>
      if trending.isEmpty then
        .ok (.errObj "Unable to fetch trending Indian stocks from NSE.")
      else
        let syms := (trending.take limit).map
          (fun s => if s.toList.contains '.' then s else s ++ ".NS")
        let results := buildTopEntries env now syms
        match underPrice with
        | none => .ok (.list results)
        | some u => do
            let f ← jsFilterUnder u results
            return .list f

/-- The loop body of getCryptoPrice for one raw symbol: the loop
variable is reassigned to the canonical symbol before any fetch, so
error-tagged records carry the canonical symbol; on success the price
is converted when the currency is INR. -/
def fetchCryptoEntry (env : String → SymOutcome) (now : String)
    (rate : ℚ) (currency : String) (symbol : String) : QuoteEntry :=
  let sym := normalizeCrypto symbol
  match env sym with
  | .quoteThrows => .err sym "Unable to fetch data"
  | .rtNull _ => .err sym "No real-time data available"
  | .ok q p hist det news =>
      let price := if currency = "INR" then p * rate else p
      .ok sym (q.shortName.getD sym) [now] [price] hist
        q.regularMarketChange q.regularMarketChangePercent q.marketCap det news

/-- getCryptoPrice from the chat route: rate lookup (INR only) with
fail-open fallback, sequential per-symbol loop with per-item error
capture, then the optional underPrice filter; an empty filter result is
replaced by a single explanatory placeholder record. -/
def getCryptoPrice (env : String → SymOutcome) (ro : RateOutcome) (now : String)
    (symbols : List String) (currency : String) (underPrice : Option ℚ) :
    Except JsErr (List QuoteEntry) :=
  let conversionRate := if currency = "INR" then rateOf ro else 1
  let results := symbols.map (fetchCryptoEntry env now conversionRate currency)
  match underPrice with
  | none => .ok results
  | some u => do
      let filtered ← jsFilterUnder u results
      return if filtered.isEmpty then [.message u] else filtered

/-- The loop body of getTopCryptos: coin tickers are uppercased and
suffixed with -USD; failures are skipped entirely; on success the price
is converted when the currency is INR. -/
def buildTopCryptoEntries (env : String → SymOutcome) (now : String)
    (rate : ℚ) (currency : String) (coins : List (String × String)) :
    List QuoteEntry :=
  coins.filterMap (fun c =>
    let sym := c.1.toUpper ++ "-USD"
    match env sym with
    | .quoteThrows => none
    | .rtNull _ => none
    | .ok q p hist _ _ =>
        let price := if currency = "INR" then p * rate else p
        some (.ok sym (q.shortName.getD c.2) [now] [price] hist
          q.regularMarketChange q.regularMarketChangePercent q.marketCap none []))

/-- getTopCryptos from the chat route: rate lookup (INR only) with
fail-open fallback; the coin-list fetch failing or coming back empty
makes the whole call return a bare error object; per-coin failures are
skipped; the optional underPrice filter runs inside the try block, so a
thrown TypeError there would also degrade to the bare error object; an
empty filter result is replaced by a single placeholder record. -/
def getTopCryptos (gecko : Nat → GeckoOutcome) (env : String → SymOutcome)
    (ro : RateOutcome) (now : String) (limit : Nat) (currency : String)
    (underPrice : Option ℚ) : Except JsErr BatchResult :=
  let conversionRate := if currency = "INR" then rateOf ro else 1
  match gecko limit with
  | .fail => .ok (.errObj "Unable to fetch top cryptos")
  | .ok coins =>
      if coins.isEmpty then .ok (.errObj "Unable to fetch top cryptos")
      else
        let results := buildTopCryptoEntries env now conversionRate currency coins
        match underPrice with
        | none => .ok (.list results)
        | some u =>
            match jsFilterUnder u results with
            | .error _ => .ok (.errObj "Unable to fetch top cryptos")
            | .ok filtered =>
                .ok (.list (if filtered.isEmpty then [.message u] else filtered))

/-- The stored company-information document with its named sections. -/
structure CompanyDoc where
  features : String
  pricing : String
  benefits : String
  support : String
  faq : String
  deriving DecidableEq, Repr

/-- Dynamic field access companyDoc[category]: undefined for a key that
is not one of the named sections. -/
def sectionOf (d : CompanyDoc) : String → Option String
  | "features" => some d.features
  | "pricing" => some d.pricing
  | "benefits" => some d.benefits
  | "support" => some d.support
  | "faq" => some d.faq
  | _ => none

/-- The value bound to functionResponse by the dispatch switch: one of
the batch shapes, a company-information payload, a combined market
update, or the sentinel for an unknown function name. -/
inductive FunctionResponse where
  | quoteList (entries : List QuoteEntry)
  | batch (b : BatchResult)
  | marketUpdate (topStocks : BatchResult) (newsHighlights : List String)
  | cryptoMarketUpdate (topCryptos : BatchResult) (newsHighlights : List String)
  | companyAll (doc : CompanyDoc)
  | companySection (category : String) (value : Option String)
  | notSupported
  deriving DecidableEq, Repr

/-- getCompanyInfo from the chat route: a falsy category argument
defaults to all, subscription is an alias for pricing, a missing
document throws, and otherwise either the whole document or the single
requested section is returned. -/
def getCompanyInfo (doc : Option CompanyDoc) (catArg : Option String) :
    Except JsErr FunctionResponse :=
  let category :=
    match catArg with
    | none => "all"
    | some s => if s = "" then "all" else s
  let category := if category = "subscription" then "pricing" else category
  match doc with
  | none => .error (.errorMsg "Company information not found in the database.")
  | some d =>
      .ok (if category = "all" then .companyAll d
           else .companySection category (sectionOf d category))

/-- getMarketUpdate from the chat route: trending stocks combined with
the first five market-news headlines. -/
def getMarketUpdate (nse : NseOutcome) (env : String → SymOutcome)
    (news : List String) (now : String) (limit : Nat)
    (underPrice : Option ℚ) : Except JsErr FunctionResponse := do
  let topStocks ← getTopStocks nse env now limit underPrice
  return .marketUpdate topStocks (news.take 5)

/-- getCryptoMarketUpdate from the chat route: trending cryptos combined
with the first five crypto-news headlines. -/
def getCryptoMarketUpdate (gecko : Nat → GeckoOutcome) (env : String → SymOutcome)
    (ro : RateOutcome) (news : List String) (now : String) (limit : Nat)
    (currency : String) (underPrice : Option ℚ) : Except JsErr FunctionResponse := do
  let topCryptos ← getTopCryptos gecko env ro now limit currency underPrice
  return .cryptoMarketUpdate topCryptos (news.take 5)

/-- The argument fields the dispatch switch reads from the parsed
argument blob; absent JSON keys are none. -/
structure ToolArgs where
  symbols : Option (List String)
  currency : Option String
  underPrice : Option ℚ
  limit : Option Nat
  category : Option String
  deriving DecidableEq, Repr

/-- JSON.parse of the argument blob: it either throws or yields the
argument fields. -/
inductive ArgParse where
  | malformed
  | ok (a : ToolArgs)
  deriving DecidableEq, Repr

/-- The first model reply: free text (possibly null or empty content)
or a function call carrying a name and an argument blob. -/
inductive ModelDecision where
  | direct (content : Option String)
  | fnCall (name : String) (args : ArgParse)
  deriving DecidableEq, Repr

/-- The or-else default of args.limit: absent and zero are falsy, so
both give 2 (the dispatch-site default). -/
def limitOr (l : Option Nat) : Nat :=
  match l with
  | none => 2
  | some n => if n = 0 then 2 else n

/-- The or-else default of args.currency: absent and empty are falsy,
so both give USD. -/
def currencyOr (c : Option String) : String :=
  match c with
  | none => "USD"
  | some s => if s = "" then "USD" else s

/-- One chat message of the inbound conversation. -/
structure Message where
  role : String
  content : String
  deriving DecidableEq, Repr

/-- The content of the last user-role message, or empty when there is
none. -/
def lastUserMessage (messages : List Message) : String :=
  match (messages.filter (fun m => m.role == "user")).getLast? with
  | some m => m.content
  | none => ""

/-- The feedback flags of a chat-log record. -/
structure Actions where
  like : Bool
  dislike : Bool
  report : Bool
  reportMessage : String
  deriving DecidableEq, Repr

/-- One record written to the chat-log table. -/
structure LogItem where
  messageId : String
  timestamp : String
  userQuery : String
  chatbotResponse : String
  actions : Actions
  deriving DecidableEq, Repr

/-- The external collaborators and model decisions one POST request
sees: the first model reply, the per-symbol market-data oracle, the NSE
and coin-list feeds, the rate quote, the stored company document, the
narration model (as a function of the serialized data payload, one for
each of the two system prompts), the clock, the generated identifier,
whether the log write succeeds, and the two news feeds. -/
structure PostEnv where
  decision : ModelDecision
  sym : String → SymOutcome
  nse : NseOutcome
  gecko : Nat → GeckoOutcome
  rate : RateOutcome
  companyDoc : Option CompanyDoc
  narrateCompany : FunctionResponse → String
  narrateMarket : FunctionResponse → String
  now : String
  newMessageId : String
  ddbOk : Bool
  marketNews : List String
  cryptoNews : List String

/-- The dispatch switch of the POST handler: route by function name to
the matching helper; reading args.symbols when absent makes the for-of
loop throw a TypeError; an unknown name falls to the default branch and
yields the sentinel error result. -/
def dispatch (pe : PostEnv) (name : String) (a : ToolArgs) :
    Except JsErr FunctionResponse :=
  if name = "get_stock_price" then
    match a.symbols with
    | none => .error .typeError
    | some syms => (getStockPrice pe.sym pe.now syms a.underPrice).map .quoteList
  else if name = "get_top_stocks" then
    (getTopStocks pe.nse pe.sym pe.now (limitOr a.limit) a.underPrice).map .batch
  else if name = "get_crypto_price" then
    match a.symbols with
    | none => .error .typeError
    | some syms =>
        (getCryptoPrice pe.sym pe.rate pe.now syms (currencyOr a.currency)
          a.underPrice).map .quoteList
  else if name = "get_top_cryptos" then
    (getTopCryptos pe.gecko pe.sym pe.rate pe.now (limitOr a.limit)
      (currencyOr a.currency) a.underPrice).map .batch
  else if name = "get_company_info" then
    getCompanyInfo pe.companyDoc a.category
  else if name = "get_market_update" then
    getMarketUpdate pe.nse pe.sym pe.marketNews pe.now (limitOr a.limit)
      a.underPrice
  else if name = "get_crypto_market_update" then
    getCryptoMarketUpdate pe.gecko pe.sym pe.rate pe.cryptoNews pe.now
      (limitOr a.limit) (currencyOr a.currency) a.underPrice
  else
    .ok .notSupported

/-- The success body returned by the POST handler. -/
structure PostSuccess where
  role : String
  content : String
  rawData : Option FunctionResponse
  functionName : Option String
  messageId : Option String
  deriving DecidableEq, Repr

/-- The POST handler either returns a success body or, from its
top-level catch, the generic financial-data-unavailable error with
server-error status. -/
inductive PostResponse where
  | success (s : PostSuccess)
  | serverError
  deriving DecidableEq, Repr

/-- The fixed fallback text substituted for falsy direct-answer
content. -/
def clarifyFallback : String :=
  "I\x27m here to help! Could you please clarify your request?"

/-- The or-else on message.content: null and empty content are falsy
and give the fixed fallback text. -/
def contentOr (c : Option String) : String :=
  match c with
  | none => clarifyFallback
  | some s => if s = "" then clarifyFallback else s

/-- The throwing part of the POST handler, also tracking the list of
log writes performed: a direct answer returns role and content only and
writes nothing; a function call parses the argument blob (a parse
failure throws), dispatches, narrates with the serialized result as the
data payload (the company function uses the conversational prompt), and
writes one log record when the store accepts it (a rejected write is
swallowed). -/
def POSTcore (pe : PostEnv) (messages : List Message) :
    Except JsErr (PostSuccess × List LogItem) :=
  match pe.decision with
  | .direct c =>
      .ok ({ role := "assistant", content := contentOr c, rawData := none,
             functionName := none, messageId := none }, [])
  | .fnCall name argp =>
      match argp with
      | .malformed => .error .jsonError
      | .ok a => do
          let functionResponse ← dispatch pe name a
          let narration :=
            if name = "get_company_info" then pe.narrateCompany functionResponse
            else pe.narrateMarket functionResponse
          let logs :=
            if pe.ddbOk then
              [{ messageId := pe.newMessageId, timestamp := pe.now,
                 userQuery := lastUserMessage messages,
                 chatbotResponse := narration,
                 actions := { like := false, dislike := false, report := false,
                              reportMessage := "" } }]
            else []
          return ({ role := "assistant", content := narration,
                    rawData := some functionResponse,
                    functionName := some name,
                    messageId := some pe.newMessageId }, logs)

/-- The POST handler with its top-level catch: any thrown error becomes
the generic server-error response, and no log write happens on that
path (the only write site runs after all throwing steps). -/
def POST (pe : PostEnv) (messages : List Message) :
    PostResponse × List LogItem :=
  match POSTcore pe messages with
  | .ok (s, w) => (.success s, w)
  | .error _ => (.serverError, [])

/-- One chat-log record as stored in the log table. -/
structure ChatLogRecord where
  timestamp : String
  userQuery : String
  chatbotResponse : String
  actions : Actions
  deriving DecidableEq, Repr

/-- The chat-log store, keyed by message identifier. -/
def Store : Type := String → Option ChatLogRecord

/-- The empty chat-log store. -/
def emptyStore : Store := fun _ => none

/-- The effect of the update expression built by the feedback route on
the actions of an existing record: the chosen flag is set, a like
clears dislike, a dislike clears like, and a report also stores the
(or-else defaulted) report text. -/
def applyActions (a : Actions) (action : String) (reportMessage : Option String) :
    Actions :=
  if action = "like" then { a with like := true, dislike := false }
  else if action = "dislike" then { a with dislike := true, like := false }
  else if action = "report" then
    { a with report := true,
             reportMessage := match reportMessage with
                              | none => ""
                              | some s => s }
  else a

/-- Models the key-value UpdateItem issued by the feedback route: its
update expression sets fields through the document path into the
actions attribute, and the store rejects a document path into an item
that does not exist, writing nothing; on an existing record the named
fields are set in place. -/
def ddbUpdateFeedback (store : Store) (messageId action : String)
    (reportMessage : Option String) : Except JsErr Store :=
  match store messageId with
  | none => .error (.errorMsg "The document path provided in the update expression is invalid for update")
  | some r =>
      .ok (fun k =>
        if k = messageId then
          some { r with actions := applyActions r.actions action reportMessage }
        else store k)

/-- The responses of the feedback PUT handler. -/
inductive FeedbackResponse where
  | ok (message : String) (messageId : String)
  | invalidAction
  | serverError
  deriving DecidableEq, Repr

/-- The HTTP status attached to each feedback response by the route:
200 for success, 400 for an invalid action, 500 from the catch. -/
def feedbackStatus : FeedbackResponse → Nat
  | .ok _ _ => 200
  | .invalidAction => 400
  | .serverError => 500

/-- The feedback PUT handler: validate the action against the three
allowed values, send the update, and turn a rejected update into the
generic failed-to-update response from the catch; the possibly updated
store is returned alongside the response. -/
def PUT (store : Store) (messageId action : String)
    (reportMessage : Option String) : FeedbackResponse × Store :=
  if !(action = "like" || action = "dislike" || action = "report") then
    (.invalidAction, store)
  else
    match ddbUpdateFeedback store messageId action reportMessage with
    | .error _ => (.serverError, store)
    | .ok s' => (.ok "Feedback updated successfully" messageId, s')

/-- A concrete quote used by the concrete oracles below. -/
def q1 : Quote :=
  { longName := some "Alpha Corp", shortName := some "Alpha",
    regularMarketChange := 1, regularMarketChangePercent := 1, marketCap := 5 }

/-- A concrete market-data oracle: the canonical symbol A.X succeeds
with price 10, every other symbol fails at the quote call. -/
def env1 : String → SymOutcome := fun s =>
  if s = "A.X" then .ok q1 10 [] none [] else .quoteThrows

/-- A concrete market-data oracle: the canonical symbol BTC-USD
succeeds with price 10, every other symbol fails at the quote call. -/
def envC : String → SymOutcome := fun s =>
  if s = "BTC-USD" then .ok q1 10 [] none [] else .quoteThrows

/-- A concrete stored chat-log record. -/
def rec1 : ChatLogRecord :=
  { timestamp := "t0", userQuery := "q", chatbotResponse := "resp",
    actions := { like := false, dislike := false, report := false,
                 reportMessage := "" } }

/-- A concrete store holding exactly one record under key m1. -/
def store1 : Store := fun k => if k = "m1" then some rec1 else none

/-- A concrete POST environment with a direct (null-content) model
decision. -/
def pe0 : PostEnv :=
  { decision := .direct none, sym := env1, nse := .fail,
    gecko := fun _ => .fail, rate := .throws, companyDoc := none,
    narrateCompany := fun _ => "company narration",
    narrateMarket := fun _ => "market narration",
    now := "t0", newMessageId := "id0", ddbOk := true,
    marketNews := [], cryptoNews := [] }

/-- A concrete POST environment whose model decision is a direct answer
with text. -/
def pe1 : PostEnv := { pe0 with decision := .direct (some "hello") }

/-- Parsed arguments with every optional field absent. -/
def args0 : ToolArgs :=
  { symbols := none, currency := none, underPrice := none,
    limit := none, category := none }

/-- A concrete POST environment whose model decision names a function
outside the dispatch table. -/
def pe2 : PostEnv := { pe0 with decision := .fnCall "get_weather" (.ok args0) }

/-- Parsed arguments naming the two stock symbols with an underPrice
bound. -/
def args1 : ToolArgs :=
  { symbols := some ["A.X", "B.X"], currency := none, underPrice := some 100,
    limit := none, category := none }

/-- A concrete POST environment whose model decision calls the stock
batch with an underPrice bound while one symbol fails. -/
def pe3 : PostEnv :=
  { pe0 with decision := .fnCall "get_stock_price" (.ok args1) }

theorem exceptBindOk {ε α β : Type} (v : α) (f : α → Except ε β) :
    (bind (Except.ok v) f : Except ε β) = f v := rfl

theorem exceptBindErr {ε α β : Type} (e : ε) (f : α → Except ε β) :
    (bind (Except.error e) f : Except ε β) = Except.error e := rfl

theorem isOkEntry_false_of_isErr {e : QuoteEntry} (h : isErrEntry e = true) :
    isOkEntry e = false := by
  cases e <;> simp [isErrEntry, isOkEntry] at *

theorem isErrEntry_fetchStockEntry (env : String → SymOutcome) (now s : String) :
    isErrEntry (fetchStockEntry env now s) = symFails env s := by
  unfold fetchStockEntry symFails outcomeFails
  cases he : env (normalizeEquity s) <;> simp [he, isErrEntry]

theorem isOkEntry_fetchStockEntry (env : String → SymOutcome) (now s : String) :
    isOkEntry (fetchStockEntry env now s) = !symFails env s := by
  unfold fetchStockEntry symFails outcomeFails
  cases he : env (normalizeEquity s) <;> simp [he, isOkEntry]

theorem entrySymbol_fetchStockEntry_of_fails (env : String → SymOutcome)
    (now s : String) (h : symFails env s = true) :
    entrySymbol (fetchStockEntry env now s) = s := by
  unfold fetchStockEntry
  unfold symFails outcomeFails at h
  cases he : env (normalizeEquity s) <;> simp [he, entrySymbol] at h ⊢

theorem isErrEntry_fetchCryptoEntry (env : String → SymOutcome)
    (now : String) (rate : ℚ) (currency s : String) :
    isErrEntry (fetchCryptoEntry env now rate currency s) = cryptoFails env s := by
  unfold fetchCryptoEntry cryptoFails outcomeFails
  cases he : env (normalizeCrypto s) <;> simp [he, isErrEntry]

theorem isOkEntry_fetchCryptoEntry (env : String → SymOutcome)
    (now : String) (rate : ℚ) (currency s : String) :
    isOkEntry (fetchCryptoEntry env now rate currency s) = !cryptoFails env s := by
  unfold fetchCryptoEntry cryptoFails outcomeFails
  cases he : env (normalizeCrypto s) <;> simp [he, isOkEntry]

theorem jsFilterUnder_all_ok (u : ℚ) (l : List QuoteEntry)
    (h : ∀ e ∈ l, isOkEntry e = true) :
    jsFilterUnder u l = .ok (l.filter (entryPriceUnderB u)) := by
  induction l with
  | nil => rfl
  | cons e es ih =>
      have he : isOkEntry e = true := h e (by simp)
      have ihe := ih (fun x hx => h x (by simp [hx]))
      cases e with
      | err s m => simp [isOkEntry] at he
      | message v => simp [isOkEntry] at he
      | ok s n d p hi c cp m di ne =>
          show (do
            let b ← entryUnder u (.ok s n d p hi c cp m di ne)
            let rest ← jsFilterUnder u es
            return if b then QuoteEntry.ok s n d p hi c cp m di ne :: rest
                   else rest) = _
          rw [ihe]
          rcases hp : p.head? with _ | v
          · simp [entryUnder, entryPriceUnderB, hp, List.filter_cons,
              exceptBindOk]
          · by_cases hv : v < u <;>
              simp [entryUnder, entryPriceUnderB, hp, List.filter_cons, hv,
                exceptBindOk]

theorem jsFilterUnder_has_err (u : ℚ) (l : List QuoteEntry)
    (h : ∃ e ∈ l, isOkEntry e = false) :
    jsFilterUnder u l = .error .typeError := by
  induction l with
  | nil => simp at h
  | cons e es ih =>
      cases e with
      | err s m => rfl
      | message v => rfl
      | ok s n d p hi c cp m di ne =>
          rcases h with ⟨x, hx, hxf⟩
          rcases List.mem_cons.mp hx with h1 | h1
          · subst h1; simp [isOkEntry] at hxf
          · have hrest := ih ⟨x, h1, hxf⟩
            show (do
              let b ← entryUnder u (.ok s n d p hi c cp m di ne)
              let rest ← jsFilterUnder u es
              return if b then QuoteEntry.ok s n d p hi c cp m di ne :: rest
                     else rest) = _
            rw [hrest]
            simp [entryUnder, exceptBindOk, exceptBindErr]

theorem forall₂_map_self {α β : Type} (f : α → β) (R : β → α → Prop)
    (l : List α) (h : ∀ a ∈ l, R (f a) a) : List.Forall₂ R (l.map f) l := by
  induction l with
  | nil => exact List.Forall₂.nil
  | cons a as ih =>
      exact List.Forall₂.cons (h a (by simp)) (ih fun x hx => h x (by simp [hx]))

theorem buildTopEntries_all_ok (env : String → SymOutcome) (now : String)
    (syms : List String) :
    ∀ e ∈ buildTopEntries env now syms, isOkEntry e = true := by
  intro e he
  rcases List.mem_filterMap.mp he with ⟨s, _, hs⟩
  cases ho : env s <;> simp [ho] at hs
  · exact hs ▸ rfl

theorem buildTopCryptoEntries_all_ok (env : String → SymOutcome) (now : String)
    (rate : ℚ) (currency : String) (coins : List (String × String)) :
    ∀ e ∈ buildTopCryptoEntries env now rate currency coins, isOkEntry e = true := by
  intro e he
  rcases List.mem_filterMap.mp he with ⟨c, _, hc⟩
  cases ho : env (c.1.toUpper ++ "-USD") <;> simp [ho] at hc
  · exact hc ▸ rfl

/-- Claim C5: equity symbol normalization appends the .NS suffix to
every symbol containing no dot that consists of one or more uppercase
letters, and passes every other symbol through unchanged; crypto
normalization appends -USD exactly when the symbol contains no dash;
TCS maps to TCS.NS, AAPL.O is unchanged, BTC maps to BTC-USD. -/
theorem c5_normalization :
    (∀ s : String, s.toList.contains '.' = false → s.toList ≠ [] →
        s.toList.all isUpperAlpha = true → normalizeEquity s = s ++ ".NS") ∧
    (∀ s : String, (s.toList.contains '.' = true ∨ s.toList = [] ∨
        s.toList.all isUpperAlpha = false) → normalizeEquity s = s) ∧
    (∀ s : String, s.toList.contains '-' = false → normalizeCrypto s = s ++ "-USD") ∧
    (∀ s : String, s.toList.contains '-' = true → normalizeCrypto s = s) ∧
    normalizeEquity "TCS" = "TCS.NS" ∧
    normalizeEquity "AAPL.O" = "AAPL.O" ∧
    normalizeCrypto "BTC" = "BTC-USD" := by
  refine ⟨?_, ?_, ?_, ?_, by decide, by decide, by decide⟩
  · intro s h1 h2 h3
    have he : s.toList.isEmpty = false := by
      cases hl : s.toList with
      | nil => exact absurd hl h2
      | cons a as => rfl
    have hc : (!(s.toList.contains '.') &&
        (!s.toList.isEmpty && s.toList.all isUpperAlpha)) = true := by
      rw [h1, h3, he]
      rfl
    unfold normalizeEquity
    rw [hc]
    rfl
  · intro s h
    rcases h with h | h | h
    · have hc : (!(s.toList.contains '.') &&
          (!s.toList.isEmpty && s.toList.all isUpperAlpha)) = false := by
        rw [h]
        rfl
      unfold normalizeEquity
      rw [hc]
      rfl
    · have hc : (!(s.toList.contains '.') &&
          (!s.toList.isEmpty && s.toList.all isUpperAlpha)) = false := by
        rw [h]
        rfl
      unfold normalizeEquity
      rw [hc]
      rfl
    · have hc : (!(s.toList.contains '.') &&
          (!s.toList.isEmpty && s.toList.all isUpperAlpha)) = false := by
        rw [h]
        simp
      unfold normalizeEquity
      rw [hc]
      rfl
  · intro s h
    have hc : (!(s.toList.contains '-')) = true := by
      rw [h]
      rfl
    unfold normalizeCrypto
    rw [hc]
    rfl
  · intro s h
    have hc : (!(s.toList.contains '-')) = false := by
      rw [h]
      rfl
    unfold normalizeCrypto
    rw [hc]
    rfl

/-- Witness for C5 at concrete symbols INFY and ETH. -/
theorem c5_normalization_witness :
    normalizeEquity "INFY" = "INFY.NS" ∧ normalizeCrypto "ETH" = "ETH-USD" :=
  ⟨c5_normalization.1 "INFY" (by decide) (by decide) (by decide),
   c5_normalization.2.2.1 "ETH" (by decide)⟩

/-- Claim C4: like and dislike are mutually exclusive under the
feedback update: a like update sets like and clears dislike, a dislike
update sets dislike and clears like, and a like followed by a dislike
on the same stored record leaves like false and dislike true. -/
theorem c4_like_dislike_exclusive :
    (∀ (a : Actions) (rm : Option String),
        (applyActions a "like" rm).like = true ∧
        (applyActions a "like" rm).dislike = false ∧
        (applyActions a "dislike" rm).dislike = true ∧
        (applyActions a "dislike" rm).like = false) ∧
    (∀ (store : Store) (mid : String) (r : ChatLogRecord) (rm rm' : Option String),
        store mid = some r →
        ∃ r' : ChatLogRecord,
          (PUT (PUT store mid "like" rm).2 mid "dislike" rm').2 mid = some r' ∧
          r'.actions.like = false ∧ r'.actions.dislike = true) := by
  constructor
  · intro a rm
    refine ⟨?_, ?_, ?_, ?_⟩ <;> simp [applyActions]
  · intro store mid r rm rm' h
    refine ⟨{ r with actions := applyActions (applyActions r.actions "like" rm) "dislike" rm' }, ?_, ?_, ?_⟩
    · simp [PUT, ddbUpdateFeedback, h]
    · simp [applyActions]
    · simp [applyActions]

/-- Witness for C4 on the concrete one-record store. -/
theorem c4_like_dislike_exclusive_witness :
    ∃ r' : ChatLogRecord,
      (PUT (PUT store1 "m1" "like" none).2 "m1" "dislike" none).2 "m1" = some r' ∧
      r'.actions.like = false ∧ r'.actions.dislike = true :=
  c4_like_dislike_exclusive.2 store1 "m1" rec1 none none (by simp [store1])

/-- Claim C3 counterexample: a feedback update for a message identifier
with no stored record returns the generic 500 failed-to-update response
(not a NotFound status, which the route never produces) while writing
nothing. -/
theorem c3_missing_id_counterexample :
    (PUT emptyStore "m1" "like" none).1 = .serverError ∧
    feedbackStatus (PUT emptyStore "m1" "like" none).1 = 500 ∧
    feedbackStatus (PUT emptyStore "m1" "like" none).1 ≠ 404 ∧
    (PUT emptyStore "m1" "like" none).2 "m1" = none := by
  refine ⟨rfl, rfl, by decide, rfl⟩

/-- Claim C3 (amended): a feedback update referencing a messageId with
no prior record makes the store reject the nested-field update, so the
route answers with the generic 500 failed-to-update error, and the
store is unchanged (no record is created or modified). -/
theorem c3_missing_id_server_error :
    ∀ (store : Store) (mid action : String) (rm : Option String),
      store mid = none →
      (action = "like" ∨ action = "dislike" ∨ action = "report") →
      PUT store mid action rm = (.serverError, store) ∧
      feedbackStatus (PUT store mid action rm).1 = 500 := by
  intro store mid action rm h hv
  have hput : PUT store mid action rm = (.serverError, store) := by
    rcases hv with h1 | h1 | h1 <;> subst h1 <;>
      simp [PUT, ddbUpdateFeedback, h]
  exact ⟨hput, by rw [hput]; rfl⟩

/-- Witness for C3 on the empty store. -/
theorem c3_missing_id_server_error_witness :
    PUT emptyStore "m1" "like" none = (.serverError, emptyStore) ∧
    feedbackStatus (PUT emptyStore "m1" "like" none).1 = 500 :=
  c3_missing_id_server_error emptyStore "m1" "like" none rfl (Or.inl rfl)

/-- Claim C6: a direct model answer (no function call) yields a
response carrying only the assistant role and the content, with no
rawData, no functionName and no messageId, and performs no chat-log
write. -/
theorem c6_direct_answer_no_log :
    ∀ (pe : PostEnv) (messages : List Message) (c : Option String),
      pe.decision = .direct c →
      POST pe messages =
        (.success { role := "assistant", content := contentOr c,
                    rawData := none, functionName := none,
                    messageId := none }, []) := by
  intro pe messages c h
  simp [POST, POSTcore, h]

/-- Witness for C6 on a concrete environment with direct text. -/
theorem c6_direct_answer_no_log_witness :
    POST pe1 [] =
      (.success { role := "assistant", content := contentOr (some "hello"),
                  rawData := none, functionName := none,
                  messageId := none }, []) :=
  c6_direct_answer_no_log pe1 [] (some "hello") rfl

/-- Claim C10: a direct model answer with null or empty content is
replaced by the fixed clarification fallback text. -/
theorem c10_empty_content_fallback :
    ∀ (pe : PostEnv) (messages : List Message),
      (pe.decision = .direct none ∨ pe.decision = .direct (some "")) →
      POST pe messages =
        (.success { role := "assistant", content := clarifyFallback,
                    rawData := none, functionName := none,
                    messageId := none }, []) := by
  intro pe messages h
  rcases h with h | h <;> simp [POST, POSTcore, h, contentOr]

/-- Witness for C10 on a concrete environment with null content. -/
theorem c10_empty_content_fallback_witness :
    POST pe0 [] =
      (.success { role := "assistant", content := clarifyFallback,
                  rawData := none, functionName := none,
                  messageId := none }, []) :=
  c10_empty_content_fallback pe0 [] (Or.inl rfl)

/-- Claim C7: a model function call naming a function outside the
dispatch table produces the sentinel error result, which still flows
through the narration step as the data payload and comes back as the
rawData of a successful response together with the function name and a
messageId, with the usual log write; the turn is not aborted. -/
theorem c7_unknown_function_sentinel :
    ∀ (pe : PostEnv) (messages : List Message) (name : String) (a : ToolArgs),
      pe.decision = .fnCall name (.ok a) →
      name ≠ "get_stock_price" → name ≠ "get_top_stocks" →
      name ≠ "get_crypto_price" → name ≠ "get_top_cryptos" →
      name ≠ "get_company_info" → name ≠ "get_market_update" →
      name ≠ "get_crypto_market_update" →
      dispatch pe name a = .ok .notSupported ∧
      POST pe messages =
        (.success { role := "assistant",
                    content := pe.narrateMarket .notSupported,
                    rawData := some .notSupported,
                    functionName := some name,
                    messageId := some pe.newMessageId },
         if pe.ddbOk then
           [{ messageId := pe.newMessageId, timestamp := pe.now,
              userQuery := lastUserMessage messages,
              chatbotResponse := pe.narrateMarket .notSupported,
              actions := { like := false, dislike := false, report := false,
                           reportMessage := "" } }]
         else []) := by
  intro pe messages name a hdec h1 h2 h3 h4 h5 h6 h7
  have hd : dispatch pe name a = .ok .notSupported := by
    simp [dispatch, h1, h2, h3, h4, h5, h6, h7]
  refine ⟨hd, ?_⟩
  simp [POST, POSTcore, hdec, hd, h5, exceptBindOk]

/-- Witness for C7 with the unknown function name get_weather. -/
theorem c7_unknown_function_sentinel_witness :
    dispatch pe2 "get_weather" args0 = .ok .notSupported ∧
    POST pe2 [] =
      (.success { role := "assistant",
                  content := pe2.narrateMarket .notSupported,
                  rawData := some .notSupported,
                  functionName := some "get_weather",
                  messageId := some pe2.newMessageId },
       if pe2.ddbOk then
         [{ messageId := pe2.newMessageId, timestamp := pe2.now,
            userQuery := lastUserMessage [],
            chatbotResponse := pe2.narrateMarket .notSupported,
            actions := { like := false, dislike := false, report := false,
                         reportMessage := "" } }]
       else []) :=
  c7_unknown_function_sentinel pe2 [] "get_weather" args0 rfl
    (by decide) (by decide) (by decide) (by decide) (by decide) (by decide)
    (by decide)

/-- Claim C8: when a crypto batch is requested in INR and the rate
lookup fails (the quote call throws or yields no price), the conversion
rate falls back to 1, the INR batch result coincides with the USD batch
result (prices unconverted), and the batch still completes; the rate
failure never aborts the batch. -/
theorem c8_rate_fallback :
    ∀ (ro : RateOutcome) (env : String → SymOutcome) (gecko : Nat → GeckoOutcome)
      (now : String) (symbols : List String) (limit : Nat) (u : Option ℚ),
      (ro = .throws ∨ ro = .ok none) →
      rateOf ro = 1 ∧
      getCryptoPrice env ro now symbols "INR" u =
        getCryptoPrice env ro now symbols "USD" u ∧
      getTopCryptos gecko env ro now limit "INR" u =
        getTopCryptos gecko env ro now limit "USD" u ∧
      ∃ rs, getCryptoPrice env ro now symbols "INR" none = .ok rs := by
  intro ro env gecko now symbols limit u hro
  have hr : rateOf ro = 1 := by
    rcases hro with h | h <;> subst h <;> rfl
  have hmap1 : ∀ s : String,
      fetchCryptoEntry env now 1 "INR" s =
      fetchCryptoEntry env now 1 "USD" s := by
    intro s
    unfold fetchCryptoEntry
    cases he : env (normalizeCrypto s) <;> simp [he]
  have hmaps : List.map (fetchCryptoEntry env now 1 "INR") symbols =
      List.map (fetchCryptoEntry env now 1 "USD") symbols :=
    List.map_congr_left (fun s _ => hmap1 s)
  have hb : ∀ coins : List (String × String),
      buildTopCryptoEntries env now 1 "INR" coins =
      buildTopCryptoEntries env now 1 "USD" coins := by
    intro coins
    unfold buildTopCryptoEntries
    refine List.filterMap_congr ?_
    intro c _
    cases he : env (c.1.toUpper ++ "-USD") <;> simp [he]
  refine ⟨hr, ?_, ?_, ?_⟩
  · simp only [getCryptoPrice, hr, ite_self]
    rw [hmaps]
  · cases hg : gecko limit with
    | fail => simp only [getTopCryptos, hg]
    | ok coins =>
        simp only [getTopCryptos, hg, hr, ite_self]
        rw [hb coins]
  · exact ⟨symbols.map (fetchCryptoEntry env now
      (if ("INR" : String) = "INR" then rateOf ro else 1) "INR"), rfl⟩

/-- Witness for C8 at a throwing rate lookup with one concrete
symbol. -/
theorem c8_rate_fallback_witness :
    rateOf .throws = 1 ∧
    getCryptoPrice envC .throws "t0" ["BTC"] "INR" none =
      getCryptoPrice envC .throws "t0" ["BTC"] "USD" none ∧
    getTopCryptos (fun _ => .fail) envC .throws "t0" 2 "INR" none =
      getTopCryptos (fun _ => .fail) envC .throws "t0" 2 "USD" none ∧
    ∃ rs, getCryptoPrice envC .throws "t0" ["BTC"] "INR" none = .ok rs :=
  c8_rate_fallback .throws envC (fun _ => .fail) "t0" ["BTC"] 2 none
    (Or.inl rfl)

/-- Claim C9: a stock batch with a defined underPrice where at least
one symbol fails produces an error-tagged record with no prices field
among the accumulated results, the filter dereference of prices[0]
throws on it, the whole getStockPrice call errors instead of returning
a filtered batch, and the POST request degrades to the generic
server-error response with no log write. -/
theorem c9_underprice_error_crash :
    ∀ (env : String → SymOutcome) (now : String) (symbols : List String)
      (u : ℚ) (pe : PostEnv) (messages : List Message) (a : ToolArgs),
      (∃ s ∈ symbols, symFails env s = true) →
      pe.decision = .fnCall "get_stock_price" (.ok a) →
      a.symbols = some symbols → a.underPrice = some u →
      pe.sym = env → pe.now = now →
      (∃ e ∈ symbols.map (fetchStockEntry env now), isErrEntry e = true) ∧
      getStockPrice env now symbols (some u) = .error .typeError ∧
      POST pe messages = (.serverError, []) := by
  intro env now symbols u pe messages a hfail hdec hsyms hup hsym hnow
  rcases hfail with ⟨s, hs, hf⟩
  have herr : isErrEntry (fetchStockEntry env now s) = true := by
    rw [isErrEntry_fetchStockEntry, hf]
  have hmem : fetchStockEntry env now s ∈ symbols.map (fetchStockEntry env now) :=
    List.mem_map_of_mem _ hs
  have hstock : getStockPrice env now symbols (some u) = .error .typeError := by
    unfold getStockPrice
    exact jsFilterUnder_has_err u _
      ⟨fetchStockEntry env now s, hmem, isOkEntry_false_of_isErr herr⟩
  refine ⟨⟨fetchStockEntry env now s, hmem, herr⟩, hstock, ?_⟩
  have hdisp : dispatch pe "get_stock_price" a = .error .typeError := by
    simp [dispatch, hsyms, hup, hsym, hnow, hstock]
    rfl
  simp [POST, POSTcore, hdec, hdisp, exceptBindErr]

/-- Witness for C9 on the concrete oracle where B.X fails. -/
theorem c9_underprice_error_crash_witness :
    (∃ e ∈ ["A.X", "B.X"].map (fetchStockEntry env1 "t0"), isErrEntry e = true) ∧
    getStockPrice env1 "t0" ["A.X", "B.X"] (some 100) = .error .typeError ∧
    POST pe3 [] = (.serverError, []) :=
  c9_underprice_error_crash env1 "t0" ["A.X", "B.X"] 100 pe3 [] args1
    ⟨"B.X", by decide, by decide⟩ rfl rfl rfl rfl rfl

/-- Claim C1 counterexample: a two-symbol batch where exactly one
symbol fails, submitted with an underPrice bound, aborts with a thrown
TypeError instead of returning a two-entry result, so one failing
symbol can abort the batch. -/
theorem c1_filter_aborts_batch_counterexample :
    (["A.X", "B.X"].filter (symFails env1)).length = 1 ∧
    getStockPrice env1 "t0" ["A.X", "B.X"] (some 100) = .error .typeError := by
  exact ⟨by decide, rfl⟩

/-- Claim C1 (amended): for every stock batch submitted without an
underPrice bound where exactly one symbol fails, the result is a list
with one entry per input symbol in input order, exactly one of which is
error-tagged; the error entry sits at the failing position and carries
that raw symbol, and every other position carries a full quote
record. -/
theorem c1_single_failure_batch :
    ∀ (env : String → SymOutcome) (now : String) (symbols : List String),
      (symbols.filter (symFails env)).length = 1 →
      ∃ rs, getStockPrice env now symbols none = .ok rs ∧
        rs.length = symbols.length ∧
        (rs.filter isErrEntry).length = 1 ∧
        List.Forall₂ (fun e s =>
          isErrEntry e = symFails env s ∧
          (symFails env s = true → entrySymbol e = s) ∧
          (symFails env s = false → isOkEntry e = true)) rs symbols := by
  intro env now symbols hone
  refine ⟨symbols.map (fetchStockEntry env now), rfl, List.length_map _ _, ?_, ?_⟩
  · rw [List.filter_map, List.length_map]
    have hco : List.filter (isErrEntry ∘ fetchStockEntry env now) symbols =
        List.filter (symFails env) symbols :=
      List.filter_congr (fun s _ => isErrEntry_fetchStockEntry env now s)
    rw [hco, hone]
  · refine forall₂_map_self _ _ _ (fun s _ => ?_)
    refine ⟨isErrEntry_fetchStockEntry env now s, ?_, ?_⟩
    · intro hf
      exact entrySymbol_fetchStockEntry_of_fails env now s hf
    · intro hnf
      rw [isOkEntry_fetchStockEntry, hnf]
      rfl

/-- Witness for C1 on the concrete oracle where exactly B.X fails and
no underPrice bound is given. -/
theorem c1_single_failure_batch_witness :
    ∃ rs, getStockPrice env1 "t0" ["A.X", "B.X"] none = .ok rs ∧
      rs.length = (["A.X", "B.X"] : List String).length ∧
      (rs.filter isErrEntry).length = 1 ∧
      List.Forall₂ (fun e s =>
        isErrEntry e = symFails env1 s ∧
        (symFails env1 s = true → entrySymbol e = s) ∧
        (symFails env1 s = false → isOkEntry e = true)) rs ["A.X", "B.X"] :=
  c1_single_failure_batch env1 "t0" ["A.X", "B.X"] (by decide)

/-- Claim C2 counterexample: a stock batch whose only symbol succeeds
with a price above the bound returns the empty sequence from the
underPrice filter, not a single explanatory placeholder entry. -/
theorem c2_stock_filter_empty_counterexample :
    getStockPrice env1 "t0" ["A.X"] (some 5) = .ok [] := rfl

/-- Claim C2 (amended): when underPrice filtering passes no entry, only
getCryptoPrice and getTopCryptos return the single explanatory
placeholder entry (and only when every fetched entry carries prices, as
the filter throws on error-tagged entries); getStockPrice and
getTopStocks return the empty sequence instead. -/
theorem c2_placeholder_amended :
    ∀ (env : String → SymOutcome) (ro : RateOutcome) (nse : NseOutcome)
      (gecko : Nat → GeckoOutcome) (now currency : String)
      (symbols trending : List String) (coins : List (String × String))
      (limit : Nat) (u : ℚ),
      ((∀ s ∈ symbols, symFails env s = false) →
        (∀ e ∈ symbols.map (fetchStockEntry env now),
          entryPriceUnderB u e = false) →
        getStockPrice env now symbols (some u) = .ok []) ∧
      ((∀ s ∈ symbols, cryptoFails env s = false) →
        (∀ e ∈ symbols.map (fetchCryptoEntry env now
            (if currency = "INR" then rateOf ro else 1) currency),
          entryPriceUnderB u e = false) →
        getCryptoPrice env ro now symbols currency (some u) =
          .ok [.message u]) ∧
      (nse = .ok trending → trending ≠ [] →
        (∀ e ∈ buildTopEntries env now ((trending.take limit).map
            (fun s => if s.toList.contains '.' then s else s ++ ".NS")),
          entryPriceUnderB u e = false) →
        getTopStocks nse env now limit (some u) = .ok (.list [])) ∧
      (gecko limit = .ok coins → coins ≠ [] →
        (∀ e ∈ buildTopCryptoEntries env now
            (if currency = "INR" then rateOf ro else 1) currency coins,
          entryPriceUnderB u e = false) →
        getTopCryptos gecko env ro now limit currency (some u) =
          .ok (.list [.message u])) := by
  intro env ro nse gecko now currency symbols trending coins limit u
  refine ⟨?_, ?_, ?_, ?_⟩
  · intro h1 h2
    have hok : ∀ e ∈ symbols.map (fetchStockEntry env now),
        isOkEntry e = true := by
      intro e he
      rcases List.mem_map.mp he with ⟨s, hs, rfl⟩
      rw [isOkEntry_fetchStockEntry, h1 s hs]
      rfl
    have hfil : List.filter (entryPriceUnderB u)
        (symbols.map (fetchStockEntry env now)) = [] :=
      List.filter_eq_nil_iff.mpr (fun e he => by simp [h2 e he])
    simp only [getStockPrice]
    rw [jsFilterUnder_all_ok _ _ hok, hfil]
  · intro h1 h2
    have hok : ∀ e ∈ symbols.map (fetchCryptoEntry env now
        (if currency = "INR" then rateOf ro else 1) currency),
        isOkEntry e = true := by
      intro e he
      rcases List.mem_map.mp he with ⟨s, hs, rfl⟩
      rw [isOkEntry_fetchCryptoEntry, h1 s hs]
      rfl
    have hfil : List.filter (entryPriceUnderB u)
        (symbols.map (fetchCryptoEntry env now
          (if currency = "INR" then rateOf ro else 1) currency)) = [] :=
      List.filter_eq_nil_iff.mpr (fun e he => by simp [h2 e he])
    simp only [getCryptoPrice]
    rw [jsFilterUnder_all_ok _ _ hok, hfil]
    rfl
  · intro hnse hne h3
    subst hnse
    have hie : trending.isEmpty = false := by
      cases trending with
      | nil => exact absurd rfl hne
      | cons a as => rfl
    have hok := buildTopEntries_all_ok env now ((trending.take limit).map
      (fun s => if s.toList.contains '.' then s else s ++ ".NS"))
    have hfil : List.filter (entryPriceUnderB u)
        (buildTopEntries env now ((trending.take limit).map
          (fun s => if s.toList.contains '.' then s else s ++ ".NS"))) = [] :=
      List.filter_eq_nil_iff.mpr (fun e he => by simp [h3 e he])
    simp only [getTopStocks, hie]
    rw [if_neg (by decide : ¬(false = true))]
    rw [jsFilterUnder_all_ok _ _ hok, hfil]
    rfl
  · intro hg hne h3
    have hie : coins.isEmpty = false := by
      cases coins with
      | nil => exact absurd rfl hne
      | cons a as => rfl
    have hok := buildTopCryptoEntries_all_ok env now
      (if currency = "INR" then rateOf ro else 1) currency coins
    have hfil : List.filter (entryPriceUnderB u)
        (buildTopCryptoEntries env now
          (if currency = "INR" then rateOf ro else 1) currency coins) = [] :=
      List.filter_eq_nil_iff.mpr (fun e he => by simp [h3 e he])
    simp only [getTopCryptos, hg, hie]
    rw [if_neg (by decide : ¬(false = true))]
    rw [jsFilterUnder_all_ok _ _ hok, hfil]
    rfl

/-- Witness for C2 on the concrete oracles: the stock filter yields the
empty list, the crypto filter yields exactly the placeholder. -/
theorem c2_placeholder_amended_witness :
    getStockPrice env1 "t0" ["A.X"] (some 7) = .ok [] ∧
    getCryptoPrice envC .throws "t0" ["BTC"] "USD" (some 5) =
      .ok [.message 5] :=
  ⟨(c2_placeholder_amended env1 .throws .fail (fun _ => .fail) "t0" "USD"
      ["A.X"] [] [] 2 7).1 (by decide) (by decide),
   (c2_placeholder_amended envC .throws .fail (fun _ => .fail) "t0" "USD"
      ["BTC"] [] [] 2 5).2.1 (by decide) (by decide)⟩
